import Mathlib

/-
Verification of the RPCS3 libretro bridge synchronization core, as a
shallow embedding of libretro_video.cpp, libretro_core.cpp and
libretro_audio.cpp.  The static state of the video module is collected
in VideoState and each bridge entry point becomes a pure state
transformer that mirrors the control flow of the source.  GPU handles
are natural numbers; a GL fence is identified by its creation sequence
number (the value of s_present_fence_counter at creation time), and
every call to glDeleteSync is recorded in the ghost field
deletedFences.  The 64-bit frame counters are modelled as Nat: they
are only ever incremented once per frame, so wraparound is out of
reach.
-/

/-- Availability of the GL fence entry points loaded during
libretro_gl_init.  Each of glFenceSync, glDeleteSync and
glClientWaitSync is loaded independently and may individually be
missing (the loader logs a warning and leaves the pointer null). -/
structure GLCaps where
  fenceSync : Bool
  deleteSync : Bool
  clientWaitSync : Bool
deriving DecidableEq

/-- The four possible results of glClientWaitSync in
libretro_wait_for_present_fence. -/
inductive WaitResult
  | alreadySignaled
  | conditionSatisfied
  | timeoutExpired
  | waitFailed
deriving DecidableEq

/-- The file-scope statics of libretro_video.cpp that the
synchronization protocol reads and writes.  blits is a ghost counter
of glBlitFramebuffer calls issued towards the framebuffer of the
frontend. -/
structure VideoState where
  /-- s_gl_initialized -/
  glInitialized : Bool
  /-- availability of the fence entry points after libretro_gl_init -/
  caps : GLCaps
  /-- s_present_fence (none models nullptr) -/
  presentFence : Option Nat
  /-- s_present_fence_counter -/
  presentFenceCounter : Nat
  /-- ghost trace of the fences passed to glDeleteSync -/
  deletedFences : List Nat
  /-- s_frame_ready -/
  frameReady : Bool
  /-- s_frame_count (produced) -/
  frameCount : Nat
  /-- s_last_presented_frame (consumed) -/
  lastPresented : Nat
  /-- tl_flip_count of the single RSX render thread -/
  flipCount : Nat
  /-- s_rsx_resources_created -/
  rsxResourcesCreated : Bool
  /-- s_shared_texture (0 models no texture yet) -/
  sharedTexture : Nat
  /-- s_shared_texture_width (int in the source) -/
  texWidth : Int
  /-- s_shared_texture_height -/
  texHeight : Int
  /-- s_main_fbo_created -/
  mainFboCreated : Bool
  /-- s_main_read_fbo (0 models no FBO) -/
  mainReadFbo : Nat
  /-- whether s_get_current_framebuffer is non-null -/
  getCurrentFramebufferSet : Bool
  /-- ghost count of blits issued to the frontend framebuffer -/
  blits : Nat
deriving DecidableEq

/-- The state at process start: all statics zero-initialized, the
texture dimensions carrying their declared initializers 1280 x 720. -/
def initState : VideoState where
  glInitialized := false
  caps := ⟨false, false, false⟩
  presentFence := none
  presentFenceCounter := 0
  deletedFences := []
  frameReady := false
  frameCount := 0
  lastPresented := 0
  flipCount := 0
  rsxResourcesCreated := false
  sharedTexture := 0
  texWidth := 1280
  texHeight := 720
  mainFboCreated := false
  mainReadFbo := 0
  getCurrentFramebufferSet := false
  blits := 0

/-- libretro_video_init: stores the frontend callbacks and, on the
first call only, runs libretro_gl_init (which loads the GL entry
points, recorded here as the capability flags) and sets
s_gl_initialized.  getFbSet models whether the passed
get_current_framebuffer callback is non-null. -/
def libretro_video_init (getFbSet : Bool) (c : GLCaps) (s : VideoState) : VideoState :=
  if s.glInitialized then { s with getCurrentFramebufferSet := getFbSet }
  else { s with getCurrentFramebufferSet := getFbSet, caps := c, glInitialized := true }

/-- libretro_video_deinit: clears the stored callbacks
(s_gl_initialized is deliberately left set in the source). -/
def libretro_video_deinit (s : VideoState) : VideoState :=
  { s with getCurrentFramebufferSet := false }

/-- libretro_signal_frame_ready: sets s_frame_ready, increments
s_frame_count and notifies the condition variable. -/
def libretro_signal_frame_ready (s : VideoState) : VideoState :=
  { s with frameReady := true, frameCount := s.frameCount + 1 }

/-- libretro_has_new_frame: non-blocking check
s_frame_count > s_last_presented_frame. -/
def libretro_has_new_frame (s : VideoState) : Bool :=
  decide (s.lastPresented < s.frameCount)

/-- libretro_mark_frame_presented: snapshots the produced counter into
the consumed counter. -/
def libretro_mark_frame_presented (s : VideoState) : VideoState :=
  { s with lastPresented := s.frameCount }

/-- libretro_wait_for_frame.  A pending frame is consumed and reported
immediately.  Otherwise timeout 0 blocks on the condition variable
until a producer signal arrives (the signal itself is the producer
running libretro_signal_frame_ready, so the produced counter moves),
after which the flag is cleared and true returned; a non-zero timeout
waits up to the window, with the oracle arrives saying whether a
signal came in time. -/
def libretro_wait_for_frame (timeout_ms : Nat) (arrives : Bool) (s : VideoState) :
    VideoState × Bool :=
  if s.frameReady then ({ s with frameReady := false }, true)
  else if timeout_ms = 0 then
    ({ libretro_signal_frame_ready s with frameReady := false }, true)
  else if arrives then
    ({ libretro_signal_frame_ready s with frameReady := false }, true)
  else (s, false)

/-- create_rsx_render_resources: on the RSX thread, creates the shared
texture (a fresh non-zero handle), the RSX FBO and the depth/stencil
renderbuffer at the given size, then records the size and sets
s_rsx_resources_created.  No size guard is performed here. -/
def create_rsx_render_resources (width height : Int) (s : VideoState) : VideoState :=
  if s.rsxResourcesCreated then s
  else
    { s with
      sharedTexture := 1
      texWidth := width
      texHeight := height
      rsxResourcesCreated := true }

/-- resize_rsx_render_resources: reallocates the texture and
depth/stencil storage at the new size and marks the main-thread FBO
stale.  Non-positive sizes and the exact current size are rejected. -/
def resize_rsx_render_resources (newWidth newHeight : Int) (s : VideoState) : VideoState :=
  if newWidth ≤ 0 ∨ newHeight ≤ 0 then s
  else if newWidth = s.texWidth ∧ newHeight = s.texHeight then s
  else
    { s with
      texWidth := newWidth
      texHeight := newHeight
      mainFboCreated := false }

/-- libretro_ensure_render_size: first call creates the resources at
the requested size; later calls resize only when the request exceeds
the stored size in either dimension. -/
def libretro_ensure_render_size (width height : Int) (s : VideoState) : VideoState :=
  if ¬s.rsxResourcesCreated then
    create_rsx_render_resources width height
      { s with texWidth := width, texHeight := height }
  else if width > s.texWidth ∨ height > s.texHeight then
    resize_rsx_render_resources width height s
  else s

/-- libretro_get_rsx_fbo: lazily creates the resources at the stored
size on the first call from the RSX thread (state effect only). -/
def libretro_get_rsx_fbo (s : VideoState) : VideoState :=
  if ¬s.rsxResourcesCreated then
    create_rsx_render_resources s.texWidth s.texHeight s
  else s

/-- create_main_read_fbo: on the main thread, creates the read FBO
bound to the shared texture (a fresh non-zero handle) unless already
created or no shared texture exists. -/
def create_main_read_fbo (s : VideoState) : VideoState :=
  if s.mainFboCreated ∨ s.sharedTexture = 0 then s
  else { s with mainReadFbo := 2, mainFboCreated := true }

/-- libretro_blit_to_frontend: guarded on GL being initialized, the
RSX resources existing and the frontend framebuffer callback being
registered; lazily creates the main read FBO, then blits the shared
texture into the frontend framebuffer. -/
def libretro_blit_to_frontend (s : VideoState) : VideoState :=
  if ¬s.glInitialized ∨ ¬s.rsxResourcesCreated ∨ ¬s.getCurrentFramebufferSet then s
  else
    let s1 := if ¬s.mainFboCreated then create_main_read_fbo s else s
    if s1.mainReadFbo = 0 then s1
    else { s1 with blits := s1.blits + 1 }

/-- libretro_wait_for_present_fence: takes ownership of the latest
fence by exchanging the slot with null; with no fence it is a no-op.
If glClientWaitSync or glDeleteSync is missing it logs an error and
returns with the slot already cleared.  Otherwise it waits (the result
r does not change the state) and deletes the fence regardless of the
result. -/
def libretro_wait_for_present_fence (r : WaitResult) (s : VideoState) : VideoState :=
  if ¬s.glInitialized then s
  else
    match s.presentFence with
    | none => s
    | some fence =>
      let s1 := { s with presentFence := none }
      if s1.caps.clientWaitSync && s1.caps.deleteSync then
        { s1 with deletedFences := s1.deletedFences ++ [fence] }
      else s1

/-- The fence block of LibretroGSFrame::flip: when glFenceSync and
glDeleteSync are present, creates a fence (identified by the bumped
counter), exchanges it into the slot and deletes the previous slot
occupant if there was one. -/
def flip_fence_part (s : VideoState) : VideoState :=
  if s.caps.fenceSync && s.caps.deleteSync then
    { s with
      presentFenceCounter := s.presentFenceCounter + 1
      presentFence := some (s.presentFenceCounter + 1)
      deletedFences := s.deletedFences ++ s.presentFence.toList }
  else s

/-- The tail of LibretroGSFrame::flip: increments the thread-local
flip counter and signals frame-ready on every second flip. -/
def flip_parity_part (s : VideoState) : VideoState :=
  if (s.flipCount + 1) % 2 = 0 then
    libretro_signal_frame_ready { s with flipCount := s.flipCount + 1 }
  else { s with flipCount := s.flipCount + 1 }

/-- LibretroGSFrame::flip: skipped frames return before any effect;
otherwise the fence is installed (when the primitives exist) and the
flip parity decides whether frame-ready is signalled. -/
def LibretroGSFrame.flip (skip_frame : Bool) (s : VideoState) : VideoState :=
  if skip_frame then s
  else flip_parity_part (flip_fence_part s)

/-- The frame-submission decision of retro_run. -/
inductive PresentAction
  | newFrame
  | dupe
deriving DecidableEq

/-- The presentation tail of retro_run: clean up GL state, wait on the
present fence, then either blit and present a new frame (marking it
consumed) or ask the frontend to dupe the previous frame. -/
def retro_run_present (r : WaitResult) (s : VideoState) : VideoState × PresentAction :=
  let s1 := libretro_wait_for_present_fence r s
  if libretro_has_new_frame s1 then
    (libretro_mark_frame_presented (libretro_blit_to_frontend s1), PresentAction.newFrame)
  else (s1, PresentAction.dupe)

/-- A sequence of flip calls on the render thread. -/
def runFlips : List Bool → VideoState → VideoState
  | [], s => s
  | b :: bs, s => runFlips bs (LibretroGSFrame.flip b s)

/-- One step of the video module: any of its entry points invoked with
any arguments. -/
inductive VideoStep : VideoState → VideoState → Prop
  | videoInit (getFbSet : Bool) (c : GLCaps) (s : VideoState) :
      VideoStep s (libretro_video_init getFbSet c s)
  | videoDeinit (s : VideoState) : VideoStep s (libretro_video_deinit s)
  | signalFrameReady (s : VideoState) : VideoStep s (libretro_signal_frame_ready s)
  | markFramePresented (s : VideoState) : VideoStep s (libretro_mark_frame_presented s)
  | waitForFrame (t : Nat) (a : Bool) (s : VideoState) :
      VideoStep s (libretro_wait_for_frame t a s).1
  | flip (skip : Bool) (s : VideoState) : VideoStep s (LibretroGSFrame.flip skip s)
  | waitForPresentFence (r : WaitResult) (s : VideoState) :
      VideoStep s (libretro_wait_for_present_fence r s)
  | ensureRenderSize (w h : Int) (s : VideoState) :
      VideoStep s (libretro_ensure_render_size w h s)
  | getRsxFbo (s : VideoState) : VideoStep s (libretro_get_rsx_fbo s)
  | blitToFrontend (s : VideoState) : VideoStep s (libretro_blit_to_frontend s)

/-- States reachable from process start through the video entry
points. -/
def Reachable (s : VideoState) : Prop :=
  Relation.ReflTransGen VideoStep initState s

/-
Pause watchdog of libretro_core.cpp.  The watchdog thread wakes every
10ms, reads the gap since the last retro_run tick and pauses or
resumes the emulator with hysteresis.  One loop iteration with an
observed gap becomes one watchdog_check step; issuing Emu.Pause or
Emu.Resume is modelled as taking effect (the emulator mirrors the
request before the next check).
-/

/-- What Emu reports: IsRunning or IsPaused. -/
inductive EmuMode
  | running
  | paused
deriving DecidableEq

/-- s_paused_by_watchdog together with the emulator mode the watchdog
inspects. -/
structure WatchdogState where
  pausedByWatchdog : Bool
  emu : EmuMode
deriving DecidableEq

/-- A command the watchdog issues to the emulator core. -/
inductive WatchdogCmd
  | pause
  | resume
deriving DecidableEq

/-- pause_threshold_us in start_pause_watchdog. -/
def pause_threshold_us : Int := 100000

/-- resume_threshold_us in start_pause_watchdog. -/
def resume_threshold_us : Int := 40000

/-- One iteration of the watchdog loop over an observed tick gap in
microseconds. -/
def watchdog_check (gap : Int) (s : WatchdogState) : WatchdogState × Option WatchdogCmd :=
  if pause_threshold_us < gap then
    if s.pausedByWatchdog = false ∧ s.emu = EmuMode.running then
      (⟨true, EmuMode.paused⟩, some WatchdogCmd.pause)
    else (s, none)
  else if gap < resume_threshold_us then
    if s.pausedByWatchdog = true ∧ s.emu = EmuMode.paused then
      (⟨false, EmuMode.running⟩, some WatchdogCmd.resume)
    else (s, none)
  else (s, none)

/-- Running the watchdog over a sequence of observed gaps, collecting
the issued commands in order. -/
def watchdog_run : List Int → WatchdogState → WatchdogState × List WatchdogCmd
  | [], s => (s, [])
  | g :: gs, s =>
    ((watchdog_run gs (watchdog_check g s).1).1,
      (watchdog_check g s).2.toList ++ (watchdog_run gs (watchdog_check g s).1).2)

/-
Context pool of libretro_video.cpp (the Windows implementation, which
is the real one).  Contexts are non-zero numeric handles; the platform
context-creation calls are an oracle recording what each would
return.
-/

/-- The pool statics: s_available_contexts, s_shared_contexts, whether
the main HDC/HGLRC pair was captured at init, and whether
wglCreateContextAttribsARB was loaded. -/
structure PoolState where
  available : List Nat
  shared : List Nat
  mainCaptured : Bool
  hasCreateAttribs : Bool
deriving DecidableEq

/-- Outcomes of the three platform creation calls make_context may
attempt: wglCreateContextAttribsARB sharing with the main context,
the same without sharing, and legacy wglCreateContext.  none models a
null return (failure). -/
structure PlatformCtx where
  sharedResult : Option Nat
  unsharedResult : Option Nat
  legacyResult : Option Nat
deriving DecidableEq

/-- The on-demand creation ladder of make_context once the pool is
empty: shared first, then unshared, then legacy. -/
def on_demand_chain (p : PlatformCtx) : Option Nat :=
  match p.sharedResult with
  | some c => some c
  | none =>
    match p.unsharedResult with
    | some c => some c
    | none => p.legacyResult

/-- LibretroGSFrame::make_context: pops the back of the available pool
into the in-use list; with an empty pool, requires the captured main
context and falls back to on-demand creation (the attribs calls only
when that entry point was loaded, then legacy), registering any
created context as in-use. -/
def make_context (p : PlatformCtx) (s : PoolState) : PoolState × Option Nat :=
  match s.available.getLast? with
  | some c =>
    ({ s with available := s.available.dropLast, shared := s.shared ++ [c] }, some c)
  | none =>
    if ¬s.mainCaptured then (s, none)
    else
      let attempt : Option Nat :=
        if s.hasCreateAttribs then
          match p.sharedResult with
          | some c => some c
          | none => p.unsharedResult
        else none
      let ctx : Option Nat :=
        match attempt with
        | some c => some c
        | none => p.legacyResult
      match ctx with
      | some c => ({ s with shared := s.shared ++ [c] }, some c)
      | none => (s, none)

/-
Audio drain of libretro_audio.cpp.  The backend ring buffer is held in
bytes; the emulator write callback is modelled by the list pending of
byte counts its successive invocations return; the timed mutex
acquisition in GetSamples is an oracle per call.
-/

/-- The LibretroAudioBackend fields GetSamples touches. -/
structure AudioBackend where
  playing : Bool
  initialized : Bool
  hasWriteCallback : Bool
  /-- channels times sample size -/
  bytesPerFrame : Nat
  /-- m_ring_buffer_bytes.size() -/
  capacityBytes : Nat
  /-- m_ring_size -/
  ringSize : Nat
  /-- byte counts returned by successive m_write_callback calls -/
  pending : List Nat
deriving DecidableEq

/-- The pull loop inside GetSamples: up to four pulls of 2048 frames
from the write callback into the ring buffer, stopping when the ring
lacks space or the callback returns no bytes. -/
def pullLoop : Nat → AudioBackend → AudioBackend
  | 0, st => st
  | n + 1, st =>
    if st.capacityBytes - st.ringSize < 2048 * st.bytesPerFrame then st
    else
      match st.pending with
      | [] => st
      | b :: rest =>
        if b = 0 then { st with pending := rest }
        else pullLoop n { st with ringSize := st.ringSize + b, pending := rest }

/-- LibretroAudioBackend::GetSamples: returns 0 when not playing, not
initialized or the timed lock fails; otherwise refills the ring via
the pull loop and hands out at most maxFrames frames. -/
def GetSamples (lockOk : Bool) (st : AudioBackend) (maxFrames : Nat) : Nat × AudioBackend :=
  if ¬st.playing ∨ ¬st.initialized then (0, st)
  else if ¬lockOk then (0, st)
  else
    let st1 := if st.hasWriteCallback then pullLoop 4 st else st
    let framesAvailable := min maxFrames (st1.ringSize / st1.bytesPerFrame)
    if framesAvailable = 0 then (0, st1)
    else (framesAvailable, { st1 with ringSize := st1.ringSize - framesAvailable * st1.bytesPerFrame })

/-- The batch loop of libretro_audio_process: up to MAX_BATCHES = 4
calls of GetSamples with FRAMES_PER_BATCH = 512, invoking the host
callback only on non-empty batches and stopping once a batch comes
back short.  Returns the frame counts of the callback invocations in
order.  locks gives the lock oracle per batch index. -/
def audioDrain (locks : Nat → Bool) : Nat → Nat → AudioBackend → List Nat × AudioBackend
  | 0, _, st => ([], st)
  | n + 1, k, st =>
    let res := GetSamples (locks k) st 512
    let emitted : List Nat := if 0 < res.1 then [res.1] else []
    if res.1 < 512 then (emitted, res.2)
    else
      let rest := audioDrain locks n (k + 1) res.2
      (emitted ++ rest.1, rest.2)

/-- libretro_audio_process: no-op without the host batch callback or
the backend instance, otherwise the bounded drain loop. -/
def libretro_audio_process (audioBatchCbSet : Bool) (backendSet : Bool)
    (locks : Nat → Bool) (st : AudioBackend) : List Nat × AudioBackend :=
  if ¬audioBatchCbSet ∨ ¬backendSet then ([], st)
  else audioDrain locks 4 0 st

/-- The state reached in Scenario A of the spec: install F1, consumer
wait_and_clear, then install F2 and F3 with no consumer call between
(GL initialized with all fence primitives available). -/
def scenarioA_final : VideoState :=
  LibretroGSFrame.flip false (LibretroGSFrame.flip false
    (libretro_wait_for_present_fence WaitResult.alreadySignaled
      (LibretroGSFrame.flip false
        (libretro_video_init true ⟨true, true, true⟩ initState))))

/-- A state with GL initialized, glFenceSync and glDeleteSync loaded
but glClientWaitSync missing, and one fence installed by the
producer. -/
def missingWaitState : VideoState :=
  LibretroGSFrame.flip false (libretro_video_init true ⟨true, true, false⟩ initState)

/-- A playing, initialized audio backend holding 100 frames of audio
(400 bytes at 4 bytes per frame), with no write callback wired. -/
def audioSmallBackend : AudioBackend where
  playing := true
  initialized := true
  hasWriteCallback := false
  bytesPerFrame := 4
  capacityBytes := 4096
  ringSize := 400
  pending := []

/-- A live fence handle: created at some point (its id was handed out
by the fence counter) and not yet passed to glDeleteSync. -/
def FenceLive (s : VideoState) (id : Nat) : Prop :=
  1 ≤ id ∧ id ≤ s.presentFenceCounter ∧ id ∉ s.deletedFences

/-- Bookkeeping invariant of the fence slot: every recorded deletion
names a fence that was actually created, and the slot only ever
references a live fence. -/
def FenceInv (s : VideoState) : Prop :=
  (∀ d ∈ s.deletedFences, 1 ≤ d ∧ d ≤ s.presentFenceCounter) ∧
  (∀ id, s.presentFence = some id → FenceLive s id)

/-
Theorems.
-/

theorem counter_le_of_step {s t : VideoState} (h : VideoStep s t)
    (hle : s.lastPresented ≤ s.frameCount) : t.lastPresented ≤ t.frameCount := by
  cases h with
  | videoInit g c s =>
    unfold libretro_video_init
    split <;> exact hle
  | videoDeinit s => exact hle
  | signalFrameReady s => exact Nat.le_succ_of_le hle
  | markFramePresented s => exact Nat.le_refl _
  | waitForFrame t a s =>
    unfold libretro_wait_for_frame libretro_signal_frame_ready
    split_ifs <;> first | exact Nat.le_succ_of_le hle | exact hle
  | flip skip s =>
    unfold LibretroGSFrame.flip flip_parity_part flip_fence_part libretro_signal_frame_ready
    split_ifs <;> first | exact Nat.le_succ_of_le hle | exact hle
  | waitForPresentFence r s =>
    unfold libretro_wait_for_present_fence
    split
    · exact hle
    · split
      · exact hle
      · dsimp only
        split_ifs <;> exact hle
  | ensureRenderSize w h s =>
    unfold libretro_ensure_render_size create_rsx_render_resources resize_rsx_render_resources
    split_ifs <;> exact hle
  | getRsxFbo s =>
    unfold libretro_get_rsx_fbo create_rsx_render_resources
    split_ifs <;> exact hle
  | blitToFrontend s =>
    unfold libretro_blit_to_frontend create_main_read_fbo
    dsimp only
    split_ifs <;> exact hle

/-- Claim C1: in every reachable state consumed is at most produced
and libretro_has_new_frame holds exactly when consumed is strictly
below produced; libretro_mark_frame_presented snapshots produced into
consumed, so two mark_produced calls followed by one mark_consumed
leave consumed equal to 2. -/
theorem frame_counter_invariant :
    (∀ s : VideoState, Reachable s →
      s.lastPresented ≤ s.frameCount ∧
      (libretro_has_new_frame s = true ↔ s.lastPresented < s.frameCount)) ∧
    (∀ s : VideoState, (libretro_mark_frame_presented s).lastPresented = s.frameCount) ∧
    (libretro_mark_frame_presented (libretro_signal_frame_ready
      (libretro_signal_frame_ready initState))).lastPresented = 2 := by
  refine ⟨?_, fun s => rfl, rfl⟩
  intro s hs
  refine ⟨?_, by simp [libretro_has_new_frame]⟩
  induction hs with
  | refl => exact Nat.le_refl _
  | tail _ hstep ih => exact counter_le_of_step hstep ih

theorem frame_counter_invariant_witness :
    initState.lastPresented ≤ initState.frameCount ∧
    (libretro_has_new_frame initState = true ↔
      initState.lastPresented < initState.frameCount) :=
  frame_counter_invariant.1 initState Relation.ReflTransGen.refl

theorem parity_fence_fields (s : VideoState) :
    (flip_parity_part s).presentFence = s.presentFence ∧
    (flip_parity_part s).presentFenceCounter = s.presentFenceCounter ∧
    (flip_parity_part s).deletedFences = s.deletedFences := by
  unfold flip_parity_part libretro_signal_frame_ready
  split_ifs <;> exact ⟨rfl, rfl, rfl⟩

theorem fenceInv_congr {s t : VideoState}
    (h1 : t.presentFence = s.presentFence)
    (h2 : t.presentFenceCounter = s.presentFenceCounter)
    (h3 : t.deletedFences = s.deletedFences)
    (hi : FenceInv s) : FenceInv t := by
  unfold FenceInv FenceLive at *
  rw [h1, h2, h3]
  exact hi

theorem fenceInv_flip_fence_part {s : VideoState} (hi : FenceInv s) :
    FenceInv (flip_fence_part s) := by
  obtain ⟨hdel, hslot⟩ := hi
  unfold flip_fence_part
  split_ifs with hcaps
  · constructor
    · intro d hd
      rcases List.mem_append.mp hd with h1 | h2
      · exact ⟨(hdel d h1).1, Nat.le_succ_of_le (hdel d h1).2⟩
      · have ho : s.presentFence = some d := by
          simpa only [Option.mem_toList, Option.mem_def] using h2
        have := hslot d ho
        exact ⟨this.1, Nat.le_succ_of_le this.2.1⟩
    · intro id hid
      have hid2 : s.presentFenceCounter + 1 = id := Option.some.inj hid
      refine ⟨by omega, by simp [← hid2], ?_⟩
      intro hmem
      rw [← hid2] at hmem
      rcases List.mem_append.mp hmem with h1 | h2
      · have := (hdel _ h1).2; omega
      · have ho : s.presentFence = some (s.presentFenceCounter + 1) := by
          simpa only [Option.mem_toList, Option.mem_def] using h2
        have := (hslot _ ho).2.1
        omega
  · exact ⟨hdel, hslot⟩

theorem fenceInv_of_step {s t : VideoState} (h : VideoStep s t)
    (hi : FenceInv s) : FenceInv t := by
  cases h with
  | videoInit g c s =>
    refine fenceInv_congr ?_ ?_ ?_ hi <;>
      (unfold libretro_video_init; split_ifs <;> rfl)
  | videoDeinit s => exact fenceInv_congr rfl rfl rfl hi
  | signalFrameReady s => exact fenceInv_congr rfl rfl rfl hi
  | markFramePresented s => exact fenceInv_congr rfl rfl rfl hi
  | waitForFrame t a s =>
    refine fenceInv_congr ?_ ?_ ?_ hi <;>
      (unfold libretro_wait_for_frame libretro_signal_frame_ready; split_ifs <;> rfl)
  | flip skip s =>
    unfold LibretroGSFrame.flip
    split_ifs with hskip
    · exact hi
    · have hp := parity_fence_fields (flip_fence_part s)
      exact fenceInv_congr hp.1 hp.2.1 hp.2.2 (fenceInv_flip_fence_part hi)
  | waitForPresentFence r s =>
    unfold libretro_wait_for_present_fence
    split_ifs with hgl
    · split
      · exact hi
      · rename_i f heq
        obtain ⟨hdel, hslot⟩ := hi
        dsimp only
        split_ifs with hcaps
        · have hf := hslot f heq
          constructor
          · intro d hd
            rcases List.mem_append.mp hd with h1 | h2
            · exact hdel d h1
            · simp at h2
              rw [h2]
              exact ⟨hf.1, hf.2.1⟩
          · intro id hid
            simp at hid
        · refine ⟨hdel, ?_⟩
          intro id hid
          simp at hid
    · exact hi
  | ensureRenderSize w h s =>
    refine fenceInv_congr ?_ ?_ ?_ hi <;>
      (unfold libretro_ensure_render_size create_rsx_render_resources
        resize_rsx_render_resources; split_ifs <;> rfl)
  | getRsxFbo s =>
    refine fenceInv_congr ?_ ?_ ?_ hi <;>
      (unfold libretro_get_rsx_fbo create_rsx_render_resources; split_ifs <;> rfl)
  | blitToFrontend s =>
    refine fenceInv_congr ?_ ?_ ?_ hi <;>
      (unfold libretro_blit_to_frontend create_main_read_fbo; dsimp only;
        split_ifs <;> rfl)

/-- Claim C2: a producer fence install (flip with skip_frame false and
the fence primitives loaded) exchanges the freshly created fence into
the shared slot and immediately deletes any previously stored fence;
in every reachable state the slot references at most one fence and
only a live one; in Scenario A the second and third installs leave F2
deleted at the third install and F3 as the unique live fence. -/
theorem fence_newest_wins :
    (∀ s : VideoState, s.caps.fenceSync = true → s.caps.deleteSync = true →
      (LibretroGSFrame.flip false s).presentFence = some (s.presentFenceCounter + 1) ∧
      (∀ o, s.presentFence = some o →
        o ∈ (LibretroGSFrame.flip false s).deletedFences)) ∧
    (∀ s : VideoState, Reachable s → ∀ id, s.presentFence = some id → FenceLive s id) ∧
    (scenarioA_final.deletedFences = [1, 2] ∧
      scenarioA_final.presentFence = some 3 ∧
      ∀ id : Nat, FenceLive scenarioA_final id ↔ id = 3) := by
  refine ⟨?_, ?_, ?_, ?_, ?_⟩
  · intro s hf hd
    have hp := parity_fence_fields (flip_fence_part s)
    rw [show LibretroGSFrame.flip false s = flip_parity_part (flip_fence_part s) from rfl]
    constructor
    · rw [hp.1]
      unfold flip_fence_part
      rw [if_pos (by simp [hf, hd])]
    · intro o ho
      rw [hp.2.2]
      unfold flip_fence_part
      rw [if_pos (by simp [hf, hd])]
      simp [ho, Option.toList]
  · intro s hs
    have hinv : FenceInv s := by
      induction hs with
      | refl =>
        constructor
        · intro d hd
          simp [initState] at hd
        · intro id hid
          simp [initState] at hid
      | tail _ hstep ih => exact fenceInv_of_step hstep ih
    exact hinv.2
  · decide
  · decide
  · intro id
    have h1 : scenarioA_final.presentFenceCounter = 3 := by decide
    have h2 : scenarioA_final.deletedFences = [1, 2] := by decide
    unfold FenceLive
    rw [h1, h2]
    simp only [List.mem_cons, List.not_mem_nil, or_false]
    omega

theorem parity_misc_fields (s : VideoState) :
    (flip_parity_part s).glInitialized = s.glInitialized ∧
    (flip_parity_part s).caps = s.caps := by
  unfold flip_parity_part libretro_signal_frame_ready
  split_ifs <;> exact ⟨rfl, rfl⟩

theorem noFence_of_step {s t : VideoState} (h : VideoStep s t)
    (hi : s.glInitialized = false → s.presentFence = none ∧ s.caps.fenceSync = false) :
    t.glInitialized = false → t.presentFence = none ∧ t.caps.fenceSync = false := by
  cases h with
  | videoInit g c s =>
    unfold libretro_video_init
    split_ifs with h1
    · exact hi
    · intro hglf
      exact absurd hglf (by simp)
  | videoDeinit s => exact hi
  | signalFrameReady s => exact hi
  | markFramePresented s => exact hi
  | waitForFrame t a s =>
    unfold libretro_wait_for_frame libretro_signal_frame_ready
    split_ifs <;> exact hi
  | flip skip s =>
    unfold LibretroGSFrame.flip
    split_ifs with hskip
    · exact hi
    · have hp := parity_fence_fields (flip_fence_part s)
      have hm := parity_misc_fields (flip_fence_part s)
      intro hglf
      rw [hm.1] at hglf
      rw [hp.1, hm.2]
      unfold flip_fence_part at hglf ⊢
      split_ifs at hglf ⊢ with hcaps
      · have h2 : s.glInitialized = false := hglf
        have := hi h2
        simp [this.2] at hcaps
      · exact hi hglf
  | waitForPresentFence r s =>
    unfold libretro_wait_for_present_fence
    split_ifs with hgl
    · split
      · exact hi
      · rename_i f heq
        dsimp only
        split_ifs with hcaps <;>
          (intro hglf
           have h2 : s.glInitialized = false := hglf
           rw [h2] at hgl
           simp at hgl)
    · exact hi
  | ensureRenderSize w h s =>
    unfold libretro_ensure_render_size create_rsx_render_resources
      resize_rsx_render_resources
    split_ifs <;> exact hi
  | getRsxFbo s =>
    unfold libretro_get_rsx_fbo create_rsx_render_resources
    split_ifs <;> exact hi
  | blitToFrontend s =>
    unfold libretro_blit_to_frontend create_main_read_fbo
    dsimp only
    split_ifs <;> exact hi

theorem reachable_noFence {s : VideoState} (hs : Reachable s) :
    s.glInitialized = false → s.presentFence = none ∧ s.caps.fenceSync = false := by
  induction hs with
  | refl => intro _; exact ⟨rfl, rfl⟩
  | tail _ hstep ih => exact noFence_of_step hstep ih

/-- Claim C3 (amended): in every reachable state a consumer fence wait
leaves the slot empty; it is the identity when no fence was installed;
when a fence was present and the glClientWaitSync/glDeleteSync entry
points are loaded, the fence is deleted by the end of the call
whatever the wait result; and the presentation tick continues to the
blit-or-dupe decision identically for every wait result, so a timeout
is non-fatal. -/
theorem wait_for_present_fence_spec :
    (∀ (r : WaitResult) (s : VideoState), Reachable s →
      (libretro_wait_for_present_fence r s).presentFence = none) ∧
    (∀ (r : WaitResult) (s : VideoState), s.presentFence = none →
      libretro_wait_for_present_fence r s = s) ∧
    (∀ (r : WaitResult) (s : VideoState) (f : Nat),
      s.glInitialized = true → s.presentFence = some f →
      s.caps.clientWaitSync = true → s.caps.deleteSync = true →
      (libretro_wait_for_present_fence r s).presentFence = none ∧
      f ∈ (libretro_wait_for_present_fence r s).deletedFences) ∧
    (∀ (r1 r2 : WaitResult) (s : VideoState),
      retro_run_present r1 s = retro_run_present r2 s) := by
  refine ⟨?_, ?_, ?_, fun r1 r2 s => rfl⟩
  · intro r s hs
    unfold libretro_wait_for_present_fence
    split_ifs with hgl
    · split
      · rename_i heq
        exact heq
      · rename_i f heq
        dsimp only
        split_ifs <;> rfl
    · have h2 : s.glInitialized = false := by
        cases h3 : s.glInitialized
        · rfl
        · rw [h3] at hgl; simp at hgl
      exact (reachable_noFence hs h2).1
  · intro r s h
    unfold libretro_wait_for_present_fence
    rw [h]
    split_ifs <;> rfl
  · intro r s f hgl hf hcw hcd
    unfold libretro_wait_for_present_fence
    rw [hf, hgl]
    simp [hcw, hcd]

theorem wait_for_present_fence_spec_witness :
    (libretro_wait_for_present_fence WaitResult.alreadySignaled initState).presentFence = none :=
  wait_for_present_fence_spec.1 WaitResult.alreadySignaled initState
    Relation.ReflTransGen.refl

/-- Claim C3 counterexample: in the reachable state where the producer
primitives are loaded but glClientWaitSync is missing and one fence is
installed, the wait call clears the slot yet never deletes the fence,
so the fence is not destroyed by the end of the call. -/
theorem wait_fence_not_destroyed_cex :
    Reachable missingWaitState ∧
    missingWaitState.glInitialized = true ∧
    missingWaitState.presentFence = some 1 ∧
    (libretro_wait_for_present_fence WaitResult.timeoutExpired
      missingWaitState).presentFence = none ∧
    1 ∉ (libretro_wait_for_present_fence WaitResult.timeoutExpired
      missingWaitState).deletedFences := by
  refine ⟨?_, by decide, by decide, by decide, by decide⟩
  exact Relation.ReflTransGen.tail
    (Relation.ReflTransGen.tail Relation.ReflTransGen.refl
      (VideoStep.videoInit true ⟨true, true, false⟩ initState))
    (VideoStep.flip false (libretro_video_init true ⟨true, true, false⟩ initState))

theorem fence_newest_wins_witness :
    (LibretroGSFrame.flip false
      (libretro_video_init true ⟨true, true, true⟩ initState)).presentFence =
      some ((libretro_video_init true ⟨true, true, true⟩ initState).presentFenceCounter + 1) :=
  (fence_newest_wins.1 (libretro_video_init true ⟨true, true, true⟩ initState) rfl rfl).1

/-- Claim C4 counterexample: after establishing capacity at 1280 x 720,
requesting 640 x 1080 (width smaller, height larger) resizes the
target to exactly 640 x 1080, so the stored width decreases although
the second requested width is below the first. -/
theorem ensure_render_size_shrink_cex :
    (libretro_ensure_render_size 1280 720 initState).texWidth = 1280 ∧
    (libretro_ensure_render_size 1280 720 initState).texHeight = 720 ∧
    (640 : Int) < 1280 ∧
    (libretro_ensure_render_size 640 1080
      (libretro_ensure_render_size 1280 720 initState)).texWidth = 640 ∧
    (libretro_ensure_render_size 640 1080
      (libretro_ensure_render_size 1280 720 initState)).texHeight = 1080 := by
  refine ⟨by decide, by decide, by decide, by decide, by decide⟩

/-- Claim C4 (amended): once the resources exist, a request that
exceeds the stored size in neither dimension is a no-op, so the stored
dimensions are unchanged; a request strictly exceeding the stored size
in at least one dimension (both requested dimensions positive) resizes
to exactly the requested pair, which can lower the other dimension. -/
theorem ensure_render_size_amended :
    ∀ (s : VideoState) (w h : Int), s.rsxResourcesCreated = true →
      ((w ≤ s.texWidth ∧ h ≤ s.texHeight) → libretro_ensure_render_size w h s = s) ∧
      ((0 < w ∧ 0 < h ∧ (s.texWidth < w ∨ s.texHeight < h)) →
        (libretro_ensure_render_size w h s).texWidth = w ∧
        (libretro_ensure_render_size w h s).texHeight = h) := by
  intro s w h hc
  constructor
  · intro hwh
    unfold libretro_ensure_render_size
    rw [if_neg (by simp [hc]), if_neg (by omega)]
  · intro hor
    unfold libretro_ensure_render_size resize_rsx_render_resources
    rw [if_neg (by simp [hc]), if_pos (by omega), if_neg (by omega), if_neg (by omega)]
    exact ⟨rfl, rfl⟩

theorem ensure_render_size_amended_witness :
    libretro_ensure_render_size 1280 720 (libretro_ensure_render_size 1280 720 initState) =
      libretro_ensure_render_size 1280 720 initState :=
  (ensure_render_size_amended (libretro_ensure_render_size 1280 720 initState) 1280 720
    (by decide)).1 (by decide)

theorem watchdog_run_append (as bs : List Int) (s : WatchdogState) :
    watchdog_run (as ++ bs) s =
      ((watchdog_run bs (watchdog_run as s).1).1,
        (watchdog_run as s).2 ++ (watchdog_run bs (watchdog_run as s).1).2) := by
  induction as generalizing s with
  | nil => simp [watchdog_run]
  | cons g gs ih => simp [watchdog_run, ih, List.append_assoc]

theorem watchdog_check_quiet_low {x : Int} (hx : x ≤ pause_threshold_us) :
    watchdog_check x ⟨false, EmuMode.running⟩ = (⟨false, EmuMode.running⟩, none) := by
  unfold watchdog_check
  rw [if_neg (by omega)]
  split_ifs with h1 h2
  · simp at h2
  · rfl
  · rfl

theorem watchdog_run_quiet_pre (pre : List Int)
    (h : ∀ x ∈ pre, x ≤ pause_threshold_us) :
    watchdog_run pre ⟨false, EmuMode.running⟩ = (⟨false, EmuMode.running⟩, []) := by
  induction pre with
  | nil => rfl
  | cons g gs ih =>
    have hg := h g (List.mem_cons_self g gs)
    have hrest := ih (fun x hx => h x (List.mem_cons_of_mem _ hx))
    simp [watchdog_run, watchdog_check_quiet_low hg, hrest]

theorem watchdog_check_mid {x : Int} (h1 : resume_threshold_us < x)
    (h2 : x < pause_threshold_us) (s : WatchdogState) :
    watchdog_check x s = (s, none) := by
  unfold watchdog_check
  rw [if_neg (by omega), if_neg (by omega)]

theorem watchdog_run_mid (post : List Int)
    (h : ∀ x ∈ post, resume_threshold_us < x ∧ x < pause_threshold_us)
    (s : WatchdogState) :
    watchdog_run post s = (s, []) := by
  induction post with
  | nil => rfl
  | cons g gs ih =>
    have hg := h g (List.mem_cons_self g gs)
    simp [watchdog_run, watchdog_check_mid hg.1 hg.2,
      ih (fun x hx => h x (List.mem_cons_of_mem _ hx))]

/-- Claim C5: over a gap sequence that crosses the 100ms pause
threshold once and afterwards stays strictly between the 40ms resume
threshold and the pause threshold, the watchdog issues at most one
pause command and no resume command; and a resume command is only ever
issued when the pause was watchdog-initiated and the emulator reports
itself paused, so a user-initiated pause is never auto-resumed. -/
theorem pause_watchdog_hysteresis :
    (∀ (pre post : List Int) (g : Int),
      (∀ x ∈ pre, x ≤ pause_threshold_us) →
      pause_threshold_us < g →
      (∀ x ∈ post, resume_threshold_us < x ∧ x < pause_threshold_us) →
      (watchdog_run (pre ++ g :: post)
        ⟨false, EmuMode.running⟩).2.count WatchdogCmd.pause ≤ 1 ∧
      (watchdog_run (pre ++ g :: post)
        ⟨false, EmuMode.running⟩).2.count WatchdogCmd.resume = 0) ∧
    (∀ (gap : Int) (s : WatchdogState),
      (watchdog_check gap s).2 = some WatchdogCmd.resume →
      s.pausedByWatchdog = true ∧ s.emu = EmuMode.paused) := by
  constructor
  · intro pre post g hpre hg hpost
    have hcg : watchdog_check g ⟨false, EmuMode.running⟩ =
        (⟨true, EmuMode.paused⟩, some WatchdogCmd.pause) := by
      unfold watchdog_check
      rw [if_pos hg, if_pos ⟨rfl, rfl⟩]
    have hall : watchdog_run (pre ++ g :: post) ⟨false, EmuMode.running⟩ =
        ((watchdog_run post ⟨true, EmuMode.paused⟩).1, [WatchdogCmd.pause]) := by
      rw [watchdog_run_append, watchdog_run_quiet_pre pre hpre]
      simp [watchdog_run, hcg, watchdog_run_mid post hpost]
    rw [hall]
    simp
  · intro gap s h
    unfold watchdog_check at h
    split_ifs at h with h1 h2 h3 h4 <;> simp_all

theorem pause_watchdog_hysteresis_witness :
    (watchdog_run ([10000] ++ 150000 :: [50000])
      ⟨false, EmuMode.running⟩).2.count WatchdogCmd.pause ≤ 1 ∧
    (watchdog_run ([10000] ++ 150000 :: [50000])
      ⟨false, EmuMode.running⟩).2.count WatchdogCmd.resume = 0 :=
  pause_watchdog_hysteresis.1 [10000] [50000] 150000 (by decide) (by decide) (by decide)

theorem flip_false_counts (s : VideoState) :
    (LibretroGSFrame.flip false s).flipCount = s.flipCount + 1 ∧
    (LibretroGSFrame.flip false s).frameCount =
      s.frameCount + (if (s.flipCount + 1) % 2 = 0 then 1 else 0) := by
  have hff1 : (flip_fence_part s).flipCount = s.flipCount := by
    unfold flip_fence_part; split_ifs <;> rfl
  have hff2 : (flip_fence_part s).frameCount = s.frameCount := by
    unfold flip_fence_part; split_ifs <;> rfl
  rw [show LibretroGSFrame.flip false s = flip_parity_part (flip_fence_part s) from rfl]
  unfold flip_parity_part libretro_signal_frame_ready
  dsimp only
  rw [hff1, hff2]
  split_ifs with hpar
  · exact ⟨rfl, rfl⟩
  · exact ⟨rfl, rfl⟩

theorem runFlips_counts (bs : List Bool) : ∀ s : VideoState,
    (runFlips bs s).flipCount = s.flipCount + bs.count false ∧
    (runFlips bs s).frameCount =
      s.frameCount + ((s.flipCount + bs.count false) / 2 - s.flipCount / 2) := by
  induction bs with
  | nil => intro s; simp [runFlips]
  | cons b tl ih =>
    intro s
    cases b
    · have hstep := flip_false_counts s
      have htl := ih (LibretroGSFrame.flip false s)
      unfold runFlips
      constructor
      · rw [htl.1, hstep.1]
        simp only [List.count_cons]
        simp
        omega
      · rw [htl.2, hstep.1, hstep.2]
        simp only [List.count_cons]
        simp
        split_ifs with hp <;> omega
    · have hid : LibretroGSFrame.flip true s = s := rfl
      unfold runFlips
      rw [hid]
      have := ih s
      simpa [List.count_cons] using this

/-- Claim C6: a flip with skip_frame true is a no-op (no signal, no
parity advance), and over any flip sequence on a fresh render thread
the frame-ready signal (the produced-counter increment raised through
libretro_signal_frame_ready) fires exactly on every second non-skipped
flip: n non-skipped flips raise it exactly floor(n/2) times. -/
theorem flip_signal_parity :
    (∀ s : VideoState, LibretroGSFrame.flip true s = s) ∧
    (∀ (bs : List Bool) (s : VideoState), s.flipCount = 0 →
      (runFlips bs s).frameCount = s.frameCount + bs.count false / 2) := by
  refine ⟨fun s => rfl, ?_⟩
  intro bs s h0
  have h := (runFlips_counts bs s).2
  rw [h0] at h
  simpa using h

theorem flip_signal_parity_witness :
    initState.flipCount = 0 ∧
    (runFlips [false, false, false] initState).frameCount =
      initState.frameCount + [false, false, false].count false / 2 :=
  ⟨rfl, flip_signal_parity.2 [false, false, false] initState rfl⟩

/-- Claim C7: before GL initialization, before any producer-side
resource creation, or without a registered frontend framebuffer
callback, libretro_blit_to_frontend is the identity: no blit is
issued and the host destination framebuffer is untouched. -/
theorem blit_no_frame_safety :
    ∀ s : VideoState,
      s.glInitialized = false ∨ s.rsxResourcesCreated = false ∨
        s.getCurrentFramebufferSet = false →
      libretro_blit_to_frontend s = s := by
  intro s h
  have hc : ¬s.glInitialized = true ∨ ¬s.rsxResourcesCreated = true ∨
      ¬s.getCurrentFramebufferSet = true := by
    rcases h with h | h | h <;> simp [h]
  unfold libretro_blit_to_frontend
  rw [if_pos hc]

theorem blit_no_frame_safety_witness :
    libretro_blit_to_frontend initState = initState :=
  blit_no_frame_safety initState (Or.inl rfl)

/-- Claim C8 (amended): make_context pops the back of the available
pool into the in-use list when the pool is non-empty; with an empty
pool and a captured main context it falls back to on-demand creation
(a shared context first, then an unshared one, then the legacy call,
when the modern creation entry point is loaded), returning a null
handle exactly when every attempted platform creation call fails; with
the main context never captured, an empty pool yields a null handle
without attempting creation. -/
theorem make_context_fallback :
    (∀ (p : PlatformCtx) (s : PoolState) (c : Nat), s.available.getLast? = some c →
      make_context p s =
        ({ s with available := s.available.dropLast, shared := s.shared ++ [c] },
          some c)) ∧
    (∀ (p : PlatformCtx) (s : PoolState), s.available = [] → s.mainCaptured = true →
      s.hasCreateAttribs = true →
      (make_context p s).2 = on_demand_chain p ∧
      ((make_context p s).2 = none ↔
        p.sharedResult = none ∧ p.unsharedResult = none ∧ p.legacyResult = none)) ∧
    (∀ (p : PlatformCtx) (s : PoolState), s.available = [] → s.mainCaptured = true →
      (make_context p s).2 = none → p.legacyResult = none) := by
  refine ⟨?_, ?_, ?_⟩
  · intro p s c hc
    unfold make_context
    rw [hc]
  · intro p s hav hmain hattr
    cases hps : p.sharedResult <;> cases hpu : p.unsharedResult <;>
      cases hpl : p.legacyResult <;>
      simp [make_context, on_demand_chain, hav, hmain, hattr, hps, hpu, hpl]
  · intro p s hav hmain hnone
    cases hattr : s.hasCreateAttribs <;> cases hps : p.sharedResult <;>
      cases hpu : p.unsharedResult <;> cases hpl : p.legacyResult <;>
      simp_all [make_context, hav, hmain]

theorem make_context_fallback_witness :
    make_context ⟨none, none, none⟩ ⟨[5], [], true, true⟩ =
      ({ (⟨[5], [], true, true⟩ : PoolState) with
          available := ([5] : List Nat).dropLast, shared := [] ++ [5] }, some 5) :=
  make_context_fallback.1 ⟨none, none, none⟩ ⟨[5], [], true, true⟩ 5 rfl

/-- Claim C8 counterexample: with the pool empty and the main context
never captured, make_context returns a null handle without attempting
any platform creation call, although every platform call would have
succeeded. -/
theorem make_context_uncaptured_cex :
    (make_context ⟨some 7, some 8, some 9⟩ ⟨[], [], false, true⟩).2 = none := by
  decide

theorem GetSamples_le (lockOk : Bool) (st : AudioBackend) (m : Nat) :
    (GetSamples lockOk st m).1 ≤ m := by
  unfold GetSamples
  dsimp only
  split_ifs <;> first | exact Nat.zero_le m | exact Nat.min_le_left _ _

theorem audioDrain_spec (locks : Nat → Bool) :
    ∀ (n k : Nat) (st : AudioBackend),
      (audioDrain locks n k st).1.length ≤ n ∧
      (∀ f ∈ (audioDrain locks n k st).1, 0 < f ∧ f ≤ 512) ∧
      (∀ f ∈ (audioDrain locks n k st).1.dropLast, f = 512) := by
  intro n
  induction n with
  | zero =>
    intro k st
    exact ⟨by simp [audioDrain], by simp [audioDrain], by simp [audioDrain]⟩
  | succ n ih =>
    intro k st
    have hle := GetSamples_le (locks k) st 512
    have ihn := ih (k + 1) (GetSamples (locks k) st 512).2
    by_cases hlt : (GetSamples (locks k) st 512).1 < 512
    · by_cases hpos : 0 < (GetSamples (locks k) st 512).1
      · have hred : audioDrain locks (n + 1) k st =
            ([(GetSamples (locks k) st 512).1], (GetSamples (locks k) st 512).2) := by
          unfold audioDrain
          dsimp only
          rw [if_pos hlt, if_pos hpos]
        rw [hred]
        refine ⟨by simp, ?_, by simp⟩
        intro f hf
        simp only [List.mem_singleton] at hf
        subst hf
        exact ⟨hpos, by omega⟩
      · have hred : audioDrain locks (n + 1) k st =
            ([], (GetSamples (locks k) st 512).2) := by
          unfold audioDrain
          dsimp only
          rw [if_pos hlt, if_neg hpos]
        rw [hred]
        exact ⟨by simp, by simp, by simp⟩
    · have hpos : 0 < (GetSamples (locks k) st 512).1 := by omega
      have h512 : (GetSamples (locks k) st 512).1 = 512 := by omega
      have hred : audioDrain locks (n + 1) k st =
          ((GetSamples (locks k) st 512).1 ::
              (audioDrain locks n (k + 1) (GetSamples (locks k) st 512).2).1,
            (audioDrain locks n (k + 1) (GetSamples (locks k) st 512).2).2) := by
        conv_lhs => rw [audioDrain]
        dsimp only
        rw [if_neg hlt, if_pos hpos]
        exact rfl
      rw [hred]
      refine ⟨?_, ?_, ?_⟩
      · simp only [List.length_cons]
        have := ihn.1
        omega
      · intro f hf
        rcases List.mem_cons.mp hf with hf | hf
        · subst hf; exact ⟨hpos, by omega⟩
        · exact ihn.2.1 f hf
      · intro f hf
        rcases hcase : (audioDrain locks n (k + 1) (GetSamples (locks k) st 512).2).1
          with _ | ⟨a, l⟩
        · rw [hcase] at hf
          simp at hf
        · rw [hcase] at hf
          have hf2 : f ∈ (GetSamples (locks k) st 512).1 :: (a :: l).dropLast := hf
          rcases List.mem_cons.mp hf2 with hf3 | hf3
          · rw [hf3]
            exact h512
          · have hin : f ∈ (audioDrain locks n (k + 1)
                (GetSamples (locks k) st 512).2).1.dropLast := by
              rw [hcase]
              exact hf3
            exact ihn.2.2 f hin

/-- Claim C9: one libretro_audio_process call invokes the host batch
callback at most four times, never with zero frames and never with
more than 512 frames, and every invocation before the last delivers
exactly 512 frames, so the loop stops as soon as GetSamples comes back
short. -/
theorem audio_process_bounded :
    ∀ (cbSet backendSet : Bool) (locks : Nat → Bool) (st : AudioBackend),
      (libretro_audio_process cbSet backendSet locks st).1.length ≤ 4 ∧
      (∀ f ∈ (libretro_audio_process cbSet backendSet locks st).1,
        0 < f ∧ f ≤ 512) ∧
      (∀ f ∈ (libretro_audio_process cbSet backendSet locks st).1.dropLast,
        f = 512) := by
  intro cb be locks st
  unfold libretro_audio_process
  split_ifs with h
  · exact ⟨by simp, by simp, by simp⟩
  · exact audioDrain_spec locks 4 0 st

theorem audio_process_bounded_witness : 0 < 100 ∧ 100 ≤ 512 :=
  (audio_process_bounded true true (fun _ => true) audioSmallBackend).2.1 100 (by decide)

/-- Claim C10: a pending frame is consumed and reported immediately
whatever the timeout; a zero timeout blocks until a frame is signalled
and always returns true instead of polling; and every true return
clears the pending flag, so an immediately following wait with a
non-zero timeout and no fresh signal returns false. -/
theorem wait_for_frame_semantics :
    (∀ (t : Nat) (a : Bool) (s : VideoState), s.frameReady = true →
      libretro_wait_for_frame t a s = ({ s with frameReady := false }, true)) ∧
    (∀ (a : Bool) (s : VideoState),
      (libretro_wait_for_frame 0 a s).2 = true ∧
      (libretro_wait_for_frame 0 a s).1.frameReady = false) ∧
    (∀ (t : Nat) (a : Bool) (s : VideoState),
      (libretro_wait_for_frame t a s).2 = true →
      (libretro_wait_for_frame t a s).1.frameReady = false) ∧
    (∀ (t : Nat) (a : Bool) (s : VideoState) (t2 : Nat),
      t2 ≠ 0 → (libretro_wait_for_frame t a s).2 = true →
      (libretro_wait_for_frame t2 false (libretro_wait_for_frame t a s).1).2 = false) := by
  have flag : ∀ (t : Nat) (a : Bool) (s : VideoState),
      (libretro_wait_for_frame t a s).2 = true →
      (libretro_wait_for_frame t a s).1.frameReady = false := by
    intro t a s h
    unfold libretro_wait_for_frame at h ⊢
    split_ifs at h ⊢ <;> first | rfl | simp at h
  refine ⟨?_, ?_, flag, ?_⟩
  · intro t a s h
    unfold libretro_wait_for_frame
    rw [if_pos h]
  · intro a s
    unfold libretro_wait_for_frame
    split_ifs with h1 h2 h3
    · exact ⟨rfl, rfl⟩
    · exact ⟨rfl, rfl⟩
    · exact absurd rfl h2
    · exact absurd rfl h2
  · intro t a s t2 ht2 h
    have h3 := flag t a s h
    have hfalse : ∀ (t3 : Nat) (s2 : VideoState), t3 ≠ 0 → s2.frameReady = false →
        (libretro_wait_for_frame t3 false s2).2 = false := by
      intro t3 s2 ht hf
      unfold libretro_wait_for_frame
      rw [if_neg (by simp [hf]), if_neg ht, if_neg (by simp)]
    exact hfalse t2 _ ht2 h3

theorem wait_for_frame_semantics_witness :
    libretro_wait_for_frame 5 false (libretro_signal_frame_ready initState) =
      ({ libretro_signal_frame_ready initState with frameReady := false }, true) :=
  wait_for_frame_semantics.1 5 false (libretro_signal_frame_ready initState) rfl
